import Mathlib

/-!
Verification of the Rule 2220005 obsolete-KONV scanner (src/app/app.py).

The source text of a unit is modelled as a Python string, i.e. a sequence of
characters (here a List Char, so that the character offsets produced by the
regex engine coincide with list indices).  The two regular expressions
SQL_KONV_RE and DECL_KONV_RE are shallowly embedded as executable matching
functions that follow Python's backtracking semantics for these particular
patterns (alternatives tried in order, lazy quantifiers expanding minimally,
greedy ones maximally, word boundaries via the \w class, and finditer
producing the leftmost non-overlapping matches, resuming after each match).
The \w and \s classes are modelled on their ASCII fragment, which covers every
identifier and keyword the patterns mention.
-/

set_option maxRecDepth 100000

namespace Rule2220005

/-- Python's word-class \w (ASCII fragment): letters, digits, underscore. -/
def isWordChar (c : Char) : Bool := c.isAlphanum || c == '_'

/-- Python's whitespace class \s (ASCII fragment). -/
def isSpaceChar (c : Char) : Bool :=
  c == ' ' || c == '\t' || c == '\n' || c == '\r' || c == '\x0b' || c == '\x0c'

/-- The n characters of l starting at offset i (shorter near the end). -/
def takeAt (l : List Char) (i n : Nat) : List Char := (l.drop i).take n

/-- Case-insensitive literal match of pattern pat (given in upper case) at
offset i: the (?i) flag of both regexes. -/
def matchCIAt (l : List Char) (i : Nat) (pat : List Char) : Bool :=
  (takeAt l i pat.length).map Char.toUpper == pat

/-- True when offset i does not hold a word character (including i past the
end of the text). -/
def noWordAt (l : List Char) (i : Nat) : Bool :=
  match l[i]? with
  | some c => !isWordChar c
  | none => true

/-- The word-boundary test \b at offset i for a position whose following
character is a word character: start of text, or a non-word character before. -/
def boundaryBefore (l : List Char) (i : Nat) : Bool :=
  i == 0 || noWordAt l (i - 1)

/-- \bKONV\b(?!\w) at offset p (the (?!\w) lookahead repeats the trailing \b,
because KONV ends in a word character). -/
def konvWordAt (l : List Char) (p : Nat) : Bool :=
  boundaryBefore l p && matchCIAt l p "KONV".data && noWordAt l (p + 4)

/-- First offset at or after i that does not hold a \s character. -/
def skipWs (l : List Char) (i : Nat) : Nat :=
  i + ((l.drop i).takeWhile isSpaceChar).length

/-- End offsets of SELECT[\s\S]+?FROM started at offset i, in the order the
lazy quantifier tries them (at least one character between the keywords,
earliest FROM first). -/
def selectFromEnds (l : List Char) (i : Nat) : List Nat :=
  (List.range l.length).filterMap fun kk =>
    let k := kk + 1
    if matchCIAt l (i + 6 + k) "FROM".data then some (i + 10 + k) else none

/-- End offsets of the DML head alternation
(SELECT[\s\S]+?FROM|INSERT\s+INTO|UPDATE|DELETE\s+FROM) matched at offset i,
in backtracking preference order.  The alternatives start with pairwise
distinct letters, so at most one branch applies at a given offset; \s+ before
a keyword that starts with a non-space letter can only end at the end of the
whitespace run, so those branches are deterministic. -/
def sqlHeadEnds (l : List Char) (i : Nat) : List Nat :=
  if matchCIAt l i "SELECT".data then selectFromEnds l i
  else if matchCIAt l i "INSERT".data then
    let j := skipWs l (i + 6)
    if i + 6 < j && matchCIAt l j "INTO".data then [j + 4] else []
  else if matchCIAt l i "UPDATE".data then [i + 6]
  else if matchCIAt l i "DELETE".data then
    let j := skipWs l (i + 6)
    if i + 6 < j && matchCIAt l j "FROM".data then [j + 4] else []
  else []

/-- [\s\S]{0,1000}?\bKONV\b(?!\w) after offset p: the lazy window tries
j = 0, 1, ..., 1000 in that order; the result is the match end offset. -/
def konvAfter (l : List Char) (p : Nat) : Option Nat :=
  ((List.range 1001).filterMap fun j =>
    if konvWordAt l (p + j) then some (p + j + 4) else none).head?

/-- SQL_KONV_RE matched at offset i: first head alternative (in preference
order) whose lookahead window reaches a standalone KONV; returns the match
end offset.  The captured table group is always the KONV alternative. -/
def sqlMatchAt (l : List Char) (i : Nat) : Option Nat :=
  ((sqlHeadEnds l i).filterMap (konvAfter l)).head?

/-- finditer scan for SQL_KONV_RE: leftmost matches, resuming at each match
end (all matches are non-empty).  Fuel-driven recursion; the initial fuel
l.length + 2 exceeds the number of scan positions. -/
def sqlFindAux (l : List Char) : Nat → Nat → List (Nat × Nat)
  | _, 0 => []
  | i, Nat.succ fuel =>
    if l.length < i then []
    else
      match sqlMatchAt l i with
      | some e => (i, e) :: sqlFindAux l e fuel
      | none => sqlFindAux l (i + 1) fuel

/-- All matches of SQL_KONV_RE in l, as (start, end) offset pairs. -/
def sqlFinditer (l : List Char) : List (Nat × Nat) := sqlFindAux l 0 (l.length + 2)

/-- The dtype group (KONV|DZAEHK|DZAEKO) followed by \b at offset p; returns
the captured identifier (upper-cased, as analyze_unit does) and its end. -/
def dtypeAt (l : List Char) (p : Nat) : Option (String × Nat) :=
  if matchCIAt l p "KONV".data && noWordAt l (p + 4) then some ("KONV", p + 4)
  else if matchCIAt l p "DZAEHK".data && noWordAt l (p + 6) then some ("DZAEHK", p + 6)
  else if matchCIAt l p "DZAEKO".data && noWordAt l (p + 6) then some ("DZAEKO", p + 6)
  else none

/-- TABLE\s+OF\s+(dtype)\b tried at offset p1 (the end of the whitespace run
after TYPE/LIKE). -/
def restTableOf (l : List Char) (p1 : Nat) : Option (String × Nat) :=
  if matchCIAt l p1 "TABLE".data then
    if p1 + 5 < skipWs l (p1 + 5) && matchCIAt l (skipWs l (p1 + 5)) "OF".data then
      if skipWs l (p1 + 5) + 2 < skipWs l (skipWs l (p1 + 5) + 2) then
        dtypeAt l (skipWs l (skipWs l (p1 + 5) + 2))
      else none
    else none
  else none

/-- \s*(?:TABLE\s+OF\s+|\s+)?(KONV|DZAEHK|DZAEKO)\b from offset q (just after
TYPE/LIKE).  TABLE and the dtype alternatives begin with non-space letters, so
every backtracking path places them at the end of the maximal whitespace run;
the engine prefers the TABLE ... OF qualifier and falls back to the bare
dtype position when that branch fails. -/
def restMatch (l : List Char) (q : Nat) : Option (String × Nat) :=
  match restTableOf l (skipWs l q) with
  | some r => some r
  | none => dtypeAt l (skipWs l q)

/-- \b(?:TYPE|LIKE)\b at offset q. -/
def tyLikeAt (l : List Char) (q : Nat) : Bool :=
  boundaryBefore l q && (matchCIAt l q "TYPE".data || matchCIAt l q "LIKE".data) &&
    noWordAt l (q + 4)

/-- [^.\n]*?\b(?:TYPE|LIKE)\b\s*(?:TABLE\s+OF\s+|\s+)?(dtype)\b from offset q:
the lazy body extends one character at a time, never across '.' or a line
break, trying the TYPE/LIKE tail at each stop. -/
def declBody (l : List Char) : Nat → Nat → Option (String × Nat)
  | _, 0 => none
  | q, Nat.succ fuel =>
    if tyLikeAt l q && (restMatch l (q + 4)).isSome then restMatch l (q + 4)
    else if l[q]?.any fun c => !(c == '.' || c == '\n') then declBody l (q + 1) fuel
    else none

/-- The declaration-opening alternation (DATA|TYPES|FIELD-SYMBOLS|CONSTANTS)
at offset i (first letters pairwise distinct, so at most one applies);
returns its length. -/
def declKeywordLen (l : List Char) (i : Nat) : Option Nat :=
  if matchCIAt l i "DATA".data then some 4
  else if matchCIAt l i "TYPES".data then some 5
  else if matchCIAt l i "FIELD-SYMBOLS".data then some 13
  else if matchCIAt l i "CONSTANTS".data then some 9
  else none

/-- DECL_KONV_RE matched at offset i: \b, a declaration keyword, then the
body; returns the captured dtype (upper-cased) and the match end offset
(the whole match is the full group, ending at the dtype). -/
def declMatchAt (l : List Char) (i : Nat) : Option (String × Nat) :=
  if boundaryBefore l i then
    match declKeywordLen l i with
    | some k => declBody l (i + k) (l.length + 2)
    | none => none
  else none

/-- finditer scan for DECL_KONV_RE (leftmost, non-overlapping). -/
def declFindAux (l : List Char) : Nat → Nat → List (String × Nat × Nat)
  | _, 0 => []
  | i, Nat.succ fuel =>
    if l.length < i then []
    else
      match declMatchAt l i with
      | some (dt, e) => (dt, i, e) :: declFindAux l e fuel
      | none => declFindAux l (i + 1) fuel

/-- All matches of DECL_KONV_RE in l, as (dtype, start, end) triples. -/
def declFinditer (l : List Char) : List (String × Nat × Nat) :=
  declFindAux l 0 (l.length + 2)

/-- OBSOLETE_TABLE_MAP of app.py. -/
def OBSOLETE_TABLE_MAP : List (String × String) := [("KONV", "PRCD_ELEMENTS")]

/-- OBSOLETE_TYPE_MAP of app.py. -/
def OBSOLETE_TYPE_MAP : List (String × String) :=
  [("KONV", "PRCD_ELEMENTS"), ("DZAEHK", "VFPRC_COND_COUNT"),
   ("DZAEKO", "VFPRC_COND_COUNT_HEAD")]

/-- The Finding pydantic model (every field Optional, default None). -/
structure Finding where
  prog_name : Option String := none
  incl_name : Option String := none
  types : Option String := none
  blockname : Option String := none
  starting_line : Option Int := none
  ending_line : Option Int := none
  issues_type : Option String := none
  severity : Option String := none
  message : Option String := none
  suggestion : Option String := none
  snippet : Option String := none
deriving DecidableEq, Repr

/-- The Unit pydantic model (pgm_name, inc_name, type required; the rest
optional with the defaults of app.py). -/
structure Unit where
  pgm_name : String
  inc_name : String
  type : String
  name : Option String := some ""
  start_line : Option Int := some 0
  end_line : Option Int := some 0
  code : Option String := some ""
  findings : Option (List Finding) := none
deriving DecidableEq, Repr

/-- Index of the last '\n' of l (Python str.rfind over a prefix). -/
def lastNlIdx : List Char → Option Nat
  | [] => none
  | c :: cs =>
    match lastNlIdx cs with
    | some i => some (i + 1)
    | none => if c == '\n' then some 0 else none

/-- Index of the first '\n' of l (Python str.find over a suffix). -/
def firstNlIdx : List Char → Option Nat
  | [] => none
  | c :: cs => if c == '\n' then some 0 else (firstNlIdx cs).map (· + 1)

/-- line_start of get_line_snippet: text.rfind("\n", 0, s), then 0 when
absent, else one past the newline found. -/
def lineStartPos (l : List Char) (s : Nat) : Nat :=
  match lastNlIdx (l.take s) with
  | none => 0
  | some i => i + 1

/-- line_end of get_line_snippet: text.find("\n", e), len(text) when absent. -/
def lineEndPos (l : List Char) (e : Nat) : Nat :=
  match firstNlIdx (l.drop e) with
  | none => l.length
  | some j => e + j

/-- get_line_snippet of app.py: the full line containing the span (s, e),
i.e. text[line_start:line_end]. -/
def getLineSnippet (l : List Char) (s e : Nat) : List Char :=
  (l.take (lineEndPos l e)).drop (lineStartPos l s)

/-- Python str.replace for a non-empty pattern: scan left to right, replace
each non-overlapping occurrence of pat by rep.  Fuel-driven recursion (each
step consumes at least one character, so the initial fuel, the length of the
text, is enough).  The empty-pattern case of Python is not needed: the
scanner only replaces the one-character "\n". -/
def pyReplaceAux (pat rep : List Char) : Nat → List Char → List Char
  | _, [] => []
  | 0, l => l
  | Nat.succ fuel, c :: cs =>
    if pat.isPrefixOf (c :: cs) && !pat.isEmpty then
      rep ++ pyReplaceAux pat rep fuel ((c :: cs).drop pat.length)
    else c :: pyReplaceAux pat rep fuel cs

/-- Python str.replace (non-empty pattern), see pyReplaceAux. -/
def pyReplace (pat rep l : List Char) : List Char := pyReplaceAux pat rep l.length l

/-- make_finding of app.py. -/
def makeFinding (u : Unit) (src : List Char) (ms me : Nat)
    (ity msg sug : String) : Finding :=
  let base : Int := u.start_line.getD 0
  let lineInBlock : Int := ((src.take ms).count '\n' : Int) + 1
  let snip : List Char := getLineSnippet src ms me
  let snCount : Int := (snip.count '\n' : Int) + 1
  { prog_name := some u.pgm_name
    incl_name := some u.inc_name
    types := some u.type
    blockname := u.name
    starting_line := some (base + lineInBlock)
    ending_line := some (base + lineInBlock + snCount)
    issues_type := some ity
    severity := some "error"
    message := some msg
    suggestion := some sug
    snippet := some (String.mk (pyReplace ['\n'] ['\\', 'n'] snip)) }

/-- One DML finding of analyze_unit: the captured table group is the KONV
alternative, upper-cased, and its replacement comes from OBSOLETE_TABLE_MAP
(dict.get with default ""). -/
def mkSqlFinding (u : Unit) (src : List Char) (sp : Nat × Nat) : Finding :=
  let table := "KONV"
  let replacement := (OBSOLETE_TABLE_MAP.lookup table).getD ""
  makeFinding u src sp.1 sp.2 "ObsoleteTableUsage"
    (table ++ " table is obsolete in S/4HANA (SAP Note 2220005), replaced by "
      ++ replacement ++ ".")
    ("Rewrite the statement using " ++ replacement ++ " and adjust related logic.")

/-- One declaration finding of analyze_unit: the captured dtype group,
upper-cased, with its replacement from OBSOLETE_TYPE_MAP. -/
def mkDeclFinding (u : Unit) (src : List Char) (m : String × Nat × Nat) : Finding :=
  let dtype := m.1
  let replacement := (OBSOLETE_TYPE_MAP.lookup dtype).getD ""
  makeFinding u src m.2.1 m.2.2 "ObsoleteTypeDeclaration"
    (dtype ++ " type is obsolete (SAP Note 2220005), use " ++ replacement
      ++ " instead.")
    ("Change the declaration using " ++ replacement ++ " and adapt the logic accordingly.")

/-- The findings list analyze_unit accumulates: all DML matches in source
order, then all declaration matches in source order. -/
def computedFindings (u : Unit) : List Finding :=
  let src := (u.code.getD "").data
  (sqlFinditer src).map (mkSqlFinding u src)
    ++ (declFinditer src).map (mkDeclFinding u src)

/-- analyze_unit of app.py: a fresh copy of the unit (Unit(**model_dump()))
whose findings field is replaced by the computed list, or None when the list
is empty (findings if findings else None). -/
def analyzeUnit (u : Unit) : Unit :=
  let fs := computedFindings u
  { u with findings := if fs.isEmpty then none else some fs }

/-- Python truthiness of an Optional findings list: None and [] are falsy. -/
def pyTruthyFindings : Option (List Finding) → Bool
  | none => false
  | some [] => false
  | some (_ :: _) => true

/-- The /remediate-array endpoint: scan each unit in order, keep exactly the
scanned units whose findings are truthy. -/
def scan_kondition_obsolete_array (units : List Unit) : List Unit :=
  units.foldl
    (fun results u =>
      let res := analyzeUnit u
      if pyTruthyFindings res.findings then results ++ [res] else results)
    []

/-- The /remediate endpoint: scan a single unit and return it always. -/
def scan_kondition_obsolete_single (u : Unit) : Unit := analyzeUnit u

/-!
Spec-side definitions.  The following definitions are written from the words
of the specification, not from app.py; they exist only to be compared with
the code-side definitions above.
-/

/-- Declaration-body search as claim C2 words it: the body between the
declaration keyword and the TYPE/LIKE clause is barred only by the statement
terminator, so it may cross line breaks.  Identical to declBody except that
only a period stops the scan. -/
def declClaimBody (l : List Char) : Nat → Nat → Option (String × Nat)
  | _, 0 => none
  | q, Nat.succ fuel =>
    if tyLikeAt l q && (restMatch l (q + 4)).isSome then restMatch l (q + 4)
    else if l[q]?.any fun c => !(c == '.') then declClaimBody l (q + 1) fuel
    else none

/-- Declaration matcher under claim C2's reading (see declClaimBody). -/
def declClaimMatchAt (l : List Char) (i : Nat) : Option (String × Nat) :=
  if boundaryBefore l i then
    match declKeywordLen l i with
    | some k => declClaimBody l (i + k) (l.length + 2)
    | none => none
  else none

/-- All matches of the claim-C2 reading of the declaration pattern. -/
def declClaimFinditer (l : List Char) : List (String × Nat × Nat) :=
  (List.range l.length).filterMap fun i =>
    (declClaimMatchAt l i).map fun r => (r.1, i, r.2)

/-- Newline escaping as claim C7 words it: each newline character of the
snippet is replaced by the two-character sequence backslash-n, all other
characters kept. -/
def escSpec : List Char → List Char
  | [] => []
  | c :: cs => (if c == '\n' then ['\\', 'n'] else [c]) ++ escSpec cs

/-- A sample unit used by concrete witnesses. -/
def sampleUnit (s e : Int) (c : String) : Unit :=
  { pgm_name := "ZPRICING", inc_name := "ZPRICING_F01", type := "FORM",
    name := some "GET_CONDITIONS", start_line := some s, end_line := some e,
    code := some c }

/-! Theorems. -/

lemma analyzeUnit_findings (u : Unit) :
    (analyzeUnit u).findings
      = if (computedFindings u).isEmpty then none else some (computedFindings u) := rfl

lemma analyzeUnit_findings_getD (u : Unit) :
    (analyzeUnit u).findings.getD [] = computedFindings u := by
  rw [analyzeUnit_findings]
  cases hb : (computedFindings u).isEmpty
  · rw [if_neg (by simp [hb])]; rfl
  · rw [if_pos (by simp [hb])]
    exact (List.isEmpty_iff.mp hb).symm

lemma analyzeUnit_findings_eq_none_iff (u : Unit) :
    (analyzeUnit u).findings = none ↔ computedFindings u = [] := by
  rw [analyzeUnit_findings]
  cases hb : (computedFindings u).isEmpty
  · rw [if_neg (by simp [hb])]
    constructor
    · intro hc; cases hc
    · intro hc; rw [hc] at hb; simp at hb
  · simp [hb, List.isEmpty_iff.mp hb]

/-- C3: for every match at offset ms in a unit's code, the finding's
starting_line is the declared start line plus the number of newlines before
ms plus 1, and its ending_line is that starting_line plus the number of
newlines inside the extracted snippet plus 1; for a single-line snippet the
ending_line is one past the starting_line. -/
theorem make_finding_line_numbers (u : Unit) (src : List Char) (ms me : Nat)
    (ity msg sug : String) :
    (makeFinding u src ms me ity msg sug).starting_line
        = some (u.start_line.getD 0 + ((src.take ms).count '\n' : Int) + 1) ∧
    (makeFinding u src ms me ity msg sug).ending_line
        = some (u.start_line.getD 0 + ((src.take ms).count '\n' : Int) + 1
            + ((getLineSnippet src ms me).count '\n' : Int) + 1) ∧
    ((getLineSnippet src ms me).count '\n' = 0 →
      (makeFinding u src ms me ity msg sug).ending_line
          = some (u.start_line.getD 0 + ((src.take ms).count '\n' : Int) + 2)) := by
  refine ⟨?_, ?_, fun h => ?_⟩
  · simp only [makeFinding, Option.some.injEq]; ring
  · simp only [makeFinding, Option.some.injEq]; ring
  · simp only [makeFinding, Option.some.injEq, h]; push_cast; ring

/-- C3 witness: start_line = 100 and a match on the 3rd line (2 preceding
newlines) reports starting_line 103, and its single-line snippet gives
ending_line 104. -/
theorem make_finding_line_numbers_witness :
    (makeFinding (sampleUnit 100 102 "DATA x.\nDATA y.\nUPDATE konv.")
        "DATA x.\nDATA y.\nUPDATE konv.".data 16 27 "ObsoleteTableUsage" "m" "s").starting_line
      = some 103 ∧
    (makeFinding (sampleUnit 100 102 "DATA x.\nDATA y.\nUPDATE konv.")
        "DATA x.\nDATA y.\nUPDATE konv.".data 16 27 "ObsoleteTableUsage" "m" "s").ending_line
      = some 104 := by
  have h := make_finding_line_numbers (sampleUnit 100 102 "DATA x.\nDATA y.\nUPDATE konv.")
    "DATA x.\nDATA y.\nUPDATE konv.".data 16 27 "ObsoleteTableUsage" "m" "s"
  exact ⟨h.1.trans (by decide), (h.2.2 (by decide)).trans (by decide)⟩

/-- C6: the single-scan operation always returns the unit; its findings
field is None exactly when neither matcher produced a match, and it is never
an empty list. -/
theorem single_scan_absence_encoding (u : Unit) :
    ((scan_kondition_obsolete_single u).findings = none ↔
      sqlFinditer ((u.code.getD "").data) = []
        ∧ declFinditer ((u.code.getD "").data) = []) ∧
    (scan_kondition_obsolete_single u).findings ≠ some [] := by
  constructor
  · rw [show scan_kondition_obsolete_single u = analyzeUnit u from rfl,
      analyzeUnit_findings_eq_none_iff]
    simp [computedFindings]
  · rw [show scan_kondition_obsolete_single u = analyzeUnit u from rfl,
      analyzeUnit_findings]
    cases hb : (computedFindings u).isEmpty
    · rw [if_neg (by simp [hb])]
      simp only [ne_eq, Option.some.injEq]
      intro hc; rw [hc] at hb; simp at hb
    · simp [hb]

/-- C9: the scan is deterministic (equal input units give equal scanned
units) and idempotent (re-scanning an already-scanned unit returns it
unchanged). -/
theorem analyze_unit_deterministic_idempotent (u v : Unit) (h : u = v) :
    analyzeUnit u = analyzeUnit v ∧
    analyzeUnit (analyzeUnit u) = analyzeUnit u := by
  subst h
  exact ⟨rfl, rfl⟩

/-- C9 witness at a concrete unit. -/
theorem analyze_unit_deterministic_idempotent_witness :
    analyzeUnit (sampleUnit 1 1 "UPDATE konv.")
        = analyzeUnit (sampleUnit 1 1 "UPDATE konv.") ∧
    analyzeUnit (analyzeUnit (sampleUnit 1 1 "UPDATE konv."))
        = analyzeUnit (sampleUnit 1 1 "UPDATE konv.") :=
  analyze_unit_deterministic_idempotent (sampleUnit 1 1 "UPDATE konv.")
    (sampleUnit 1 1 "UPDATE konv.") rfl

lemma computedFindings_def (u : Unit) :
    computedFindings u
      = (sqlFinditer ((u.code.getD "").data)).map (mkSqlFinding u ((u.code.getD "").data))
        ++ (declFinditer ((u.code.getD "").data)).map (mkDeclFinding u ((u.code.getD "").data)) :=
  rfl

lemma pyTruthyFindings_iff (o : Option (List Finding)) :
    pyTruthyFindings o = true ↔ ∃ f fs, o = some (f :: fs) := by
  cases o with
  | none => simp [pyTruthyFindings]
  | some l => cases l <;> simp [pyTruthyFindings]

lemma scan_array_foldl (units : List Unit) (acc : List Unit) :
    units.foldl
        (fun results u =>
          let res := analyzeUnit u
          if pyTruthyFindings res.findings then results ++ [res] else results)
        acc
      = acc ++ ((units.map analyzeUnit).filter fun r => pyTruthyFindings r.findings) := by
  induction units generalizing acc with
  | nil => simp
  | cons u us ih =>
    simp only [List.foldl_cons, List.map_cons, List.filter_cons]
    rw [ih]
    cases hb : pyTruthyFindings (analyzeUnit u).findings
    · simp [hb]
    · simp [hb]

/-- C5: the batch scan returns exactly the scanned versions of the units with
at least one finding, in input order; it is a sub-sequence of the scanned
batch, every returned unit has a non-empty findings list, and units without
findings are absent. -/
theorem batch_scan_positive_only (units : List Unit) :
    scan_kondition_obsolete_array units
        = (units.filter fun u => pyTruthyFindings (analyzeUnit u).findings).map analyzeUnit ∧
    (scan_kondition_obsolete_array units).Sublist (units.map analyzeUnit) ∧
    (∀ r ∈ scan_kondition_obsolete_array units, ∃ f fs, r.findings = some (f :: fs)) ∧
    (∀ u ∈ units, (analyzeUnit u).findings = none →
      analyzeUnit u ∉ scan_kondition_obsolete_array units) := by
  have hfold :
      scan_kondition_obsolete_array units
        = (units.map analyzeUnit).filter fun r => pyTruthyFindings r.findings := by
    rw [show scan_kondition_obsolete_array units
        = units.foldl
            (fun results u =>
              let res := analyzeUnit u
              if pyTruthyFindings res.findings then results ++ [res] else results)
            [] from rfl,
      scan_array_foldl]
    simp
  refine ⟨?_, ?_, ?_, ?_⟩
  · rw [hfold, List.filter_map]
    rfl
  · rw [hfold]
    exact List.filter_sublist _
  · intro r hr
    rw [hfold] at hr
    exact (pyTruthyFindings_iff r.findings).mp (List.mem_filter.mp hr).2
  · intro u _ hnone hmem
    rw [hfold] at hmem
    have := (List.mem_filter.mp hmem).2
    rw [hnone] at this
    simp [pyTruthyFindings] at this

/-- C5 witness: a batch of three units where only the middle one matches
returns exactly that one unit, augmented. -/
theorem batch_scan_positive_only_witness :
    scan_kondition_obsolete_array
        [sampleUnit 1 1 "WRITE 1.", sampleUnit 1 1 "UPDATE konv.",
         sampleUnit 1 1 "CLEAR x."]
      = [analyzeUnit (sampleUnit 1 1 "UPDATE konv.")] ∧
    (∃ f fs, (analyzeUnit (sampleUnit 1 1 "UPDATE konv.")).findings = some (f :: fs)) := by
  have h := batch_scan_positive_only
    [sampleUnit 1 1 "WRITE 1.", sampleUnit 1 1 "UPDATE konv.",
     sampleUnit 1 1 "CLEAR x."]
  refine ⟨h.1.trans (by decide), h.2.2.1 _ ?_⟩
  rw [h.1]
  decide

lemma mkSqlFinding_issues_type (u : Unit) (src : List Char) (sp : Nat × Nat) :
    (mkSqlFinding u src sp).issues_type = some "ObsoleteTableUsage" := rfl

lemma mkDeclFinding_issues_type (u : Unit) (src : List Char) (m : String × Nat × Nat) :
    (mkDeclFinding u src m).issues_type = some "ObsoleteTypeDeclaration" := rfl

lemma mkSqlFinding_message (u : Unit) (src : List Char) (sp : Nat × Nat) :
    (mkSqlFinding u src sp).message
      = some "KONV table is obsolete in S/4HANA (SAP Note 2220005), replaced by PRCD_ELEMENTS." :=
  rfl

lemma mkSqlFinding_suggestion (u : Unit) (src : List Char) (sp : Nat × Nat) :
    (mkSqlFinding u src sp).suggestion
      = some "Rewrite the statement using PRCD_ELEMENTS and adjust related logic." :=
  rfl

/-- C1: the scan emits exactly one ObsoleteTableUsage finding per match of the
DML pattern (a SELECT...FROM span, or INSERT INTO / UPDATE / DELETE FROM,
followed within the 1000-character lookahead window by KONV as a standalone
word, case-insensitively, across lines), in source order; and every
ObsoleteTableUsage finding carries the message and suggestion that reference
the replacement PRCD_ELEMENTS. -/
theorem dml_findings_characterization (u : Unit) :
    (((analyzeUnit u).findings.getD []).filter
        fun f => f.issues_type == some "ObsoleteTableUsage")
      = (sqlFinditer ((u.code.getD "").data)).map
          (mkSqlFinding u ((u.code.getD "").data)) ∧
    ∀ f ∈ (analyzeUnit u).findings.getD [],
      f.issues_type = some "ObsoleteTableUsage" →
        f.message = some
            "KONV table is obsolete in S/4HANA (SAP Note 2220005), replaced by PRCD_ELEMENTS." ∧
        f.suggestion = some
            "Rewrite the statement using PRCD_ELEMENTS and adjust related logic." := by
  constructor
  · rw [analyzeUnit_findings_getD, computedFindings_def, List.filter_append]
    have h1 : (((sqlFinditer ((u.code.getD "").data)).map
          (mkSqlFinding u ((u.code.getD "").data))).filter
            fun f => f.issues_type == some "ObsoleteTableUsage")
        = (sqlFinditer ((u.code.getD "").data)).map
            (mkSqlFinding u ((u.code.getD "").data)) := by
      apply List.filter_eq_self.mpr
      intro a ha
      rcases List.mem_map.mp ha with ⟨sp, _, rfl⟩
      simp [mkSqlFinding_issues_type]
    have h2 : (((declFinditer ((u.code.getD "").data)).map
          (mkDeclFinding u ((u.code.getD "").data))).filter
            fun f => f.issues_type == some "ObsoleteTableUsage") = [] := by
      apply List.filter_eq_nil_iff.mpr
      intro a ha
      rcases List.mem_map.mp ha with ⟨m, _, rfl⟩
      simp [mkDeclFinding_issues_type]
    rw [h1, h2, List.append_nil]
  · intro f hf hty
    rw [analyzeUnit_findings_getD, computedFindings_def] at hf
    rcases List.mem_append.mp hf with hA | hB
    · rcases List.mem_map.mp hA with ⟨sp, _, rfl⟩
      exact ⟨mkSqlFinding_message u _ sp, mkSqlFinding_suggestion u _ sp⟩
    · rcases List.mem_map.mp hB with ⟨m, _, rfl⟩
      rw [mkDeclFinding_issues_type] at hty
      simp at hty

/-- C1 witness: a single SELECT ... FROM konv statement yields exactly one
ObsoleteTableUsage finding, whose message and suggestion name PRCD_ELEMENTS. -/
theorem dml_findings_characterization_witness :
    (((analyzeUnit (sampleUnit 1 1 "SELECT * FROM konv.")).findings.getD []).filter
        fun f => f.issues_type == some "ObsoleteTableUsage")
      = [mkSqlFinding (sampleUnit 1 1 "SELECT * FROM konv.")
          "SELECT * FROM konv.".data (0, 18)] ∧
    (mkSqlFinding (sampleUnit 1 1 "SELECT * FROM konv.")
          "SELECT * FROM konv.".data (0, 18)).message
      = some "KONV table is obsolete in S/4HANA (SAP Note 2220005), replaced by PRCD_ELEMENTS." ∧
    (mkSqlFinding (sampleUnit 1 1 "SELECT * FROM konv.")
          "SELECT * FROM konv.".data (0, 18)).suggestion
      = some "Rewrite the statement using PRCD_ELEMENTS and adjust related logic." := by
  have h := dml_findings_characterization (sampleUnit 1 1 "SELECT * FROM konv.")
  have hm := h.2 (mkSqlFinding (sampleUnit 1 1 "SELECT * FROM konv.")
      "SELECT * FROM konv.".data (0, 18)) (by decide) (by decide)
  exact ⟨h.1.trans (by decide), hm.1, hm.2⟩

lemma dtypeAt_cases (l : List Char) (p : Nat) (r : String × Nat)
    (h : dtypeAt l p = some r) :
    r.1 = "KONV" ∨ r.1 = "DZAEHK" ∨ r.1 = "DZAEKO" := by
  unfold dtypeAt at h
  split_ifs at h
  · simp only [Option.some.injEq] at h; subst h; left; rfl
  · simp only [Option.some.injEq] at h; subst h; right; left; rfl
  · simp only [Option.some.injEq] at h; subst h; right; right; rfl

lemma restTableOf_cases (l : List Char) (p1 : Nat) (r : String × Nat)
    (h : restTableOf l p1 = some r) :
    r.1 = "KONV" ∨ r.1 = "DZAEHK" ∨ r.1 = "DZAEKO" := by
  unfold restTableOf at h
  split_ifs at h
  exact dtypeAt_cases _ _ _ h

lemma restMatch_cases (l : List Char) (q : Nat) (r : String × Nat)
    (h : restMatch l q = some r) :
    r.1 = "KONV" ∨ r.1 = "DZAEHK" ∨ r.1 = "DZAEKO" := by
  unfold restMatch at h
  cases htbl : restTableOf l (skipWs l q) with
  | some r0 =>
    rw [htbl] at h
    simp only [Option.some.injEq] at h
    subst h
    exact restTableOf_cases _ _ _ htbl
  | none =>
    rw [htbl] at h
    exact dtypeAt_cases _ _ _ h

lemma declBody_cases (l : List Char) :
    ∀ fuel q r, declBody l q fuel = some r →
      r.1 = "KONV" ∨ r.1 = "DZAEHK" ∨ r.1 = "DZAEKO" := by
  intro fuel
  induction fuel with
  | zero => intro q r h; cases h
  | succ fuel ih =>
    intro q r h
    unfold declBody at h
    split_ifs at h
    · exact restMatch_cases _ _ _ h
    · exact ih _ _ h

lemma declMatchAt_cases (l : List Char) (i : Nat) (r : String × Nat)
    (h : declMatchAt l i = some r) :
    r.1 = "KONV" ∨ r.1 = "DZAEHK" ∨ r.1 = "DZAEKO" := by
  unfold declMatchAt at h
  split_ifs at h
  cases hk : declKeywordLen l i with
  | some k =>
    rw [hk] at h
    exact declBody_cases _ _ _ _ h
  | none => rw [hk] at h; cases h

lemma declFindAux_cases (l : List Char) :
    ∀ fuel i m, m ∈ declFindAux l i fuel →
      m.1 = "KONV" ∨ m.1 = "DZAEHK" ∨ m.1 = "DZAEKO" := by
  intro fuel
  induction fuel with
  | zero => intro i m hm; cases hm
  | succ fuel ih =>
    intro i m hm
    unfold declFindAux at hm
    by_cases hlt : l.length < i
    · rw [if_pos hlt] at hm; cases hm
    · rw [if_neg hlt] at hm
      cases hd : declMatchAt l i with
      | some r =>
        rw [hd] at hm
        rcases List.mem_cons.mp hm with rfl | hm2
        · exact declMatchAt_cases _ _ _ hd
        · exact ih _ _ hm2
      | none =>
        rw [hd] at hm
        exact ih _ _ hm

lemma declFinditer_cases (l : List Char) (m : String × Nat × Nat)
    (hm : m ∈ declFinditer l) :
    m.1 = "KONV" ∨ m.1 = "DZAEHK" ∨ m.1 = "DZAEKO" :=
  declFindAux_cases l _ _ m hm

/-- C2 counterexample: the code "DATA foo\nTYPE konv." is a DATA declaration
followed, with no statement terminator in between (no '.' occurs before the
konv reference), by a TYPE clause referencing KONV — the spec-side reading of
the declaration pattern matches it — yet the scan emits no finding at all,
because DECL_KONV_RE refuses to cross the line break ([^.\n]*?). -/
theorem decl_claim_counterexample :
    declClaimFinditer "DATA foo\nTYPE konv.".data = [("KONV", 0, 18)] ∧
    ("DATA foo\nTYPE konv.".data.take 18).count '.' = 0 ∧
    (analyzeUnit (sampleUnit 1 2 "DATA foo\nTYPE konv.")).findings = none := by
  refine ⟨by decide, by decide, by decide⟩

/-- C2 (amended: the declaration body must reach the TYPE/LIKE clause without
crossing a statement terminator or a line break): the scan emits exactly one
ObsoleteTypeDeclaration finding per match of the declaration pattern, in
source order; every match captures one of KONV, DZAEHK, DZAEKO, and its
finding carries the respectively mapped replacement PRCD_ELEMENTS,
VFPRC_COND_COUNT, VFPRC_COND_COUNT_HEAD in its message, and is present in
the scanned unit's findings. -/
theorem decl_findings_characterization (u : Unit) :
    (((analyzeUnit u).findings.getD []).filter
        fun f => f.issues_type == some "ObsoleteTypeDeclaration")
      = (declFinditer ((u.code.getD "").data)).map
          (mkDeclFinding u ((u.code.getD "").data)) ∧
    ∀ m ∈ declFinditer ((u.code.getD "").data),
      (m.1 = "KONV" ∨ m.1 = "DZAEHK" ∨ m.1 = "DZAEKO") ∧
      (m.1 = "KONV" → (mkDeclFinding u ((u.code.getD "").data) m).message
          = some "KONV type is obsolete (SAP Note 2220005), use PRCD_ELEMENTS instead.") ∧
      (m.1 = "DZAEHK" → (mkDeclFinding u ((u.code.getD "").data) m).message
          = some "DZAEHK type is obsolete (SAP Note 2220005), use VFPRC_COND_COUNT instead.") ∧
      (m.1 = "DZAEKO" → (mkDeclFinding u ((u.code.getD "").data) m).message
          = some "DZAEKO type is obsolete (SAP Note 2220005), use VFPRC_COND_COUNT_HEAD instead.") ∧
      mkDeclFinding u ((u.code.getD "").data) m ∈ (analyzeUnit u).findings.getD [] := by
  constructor
  · rw [analyzeUnit_findings_getD, computedFindings_def, List.filter_append]
    have h1 : (((sqlFinditer ((u.code.getD "").data)).map
          (mkSqlFinding u ((u.code.getD "").data))).filter
            fun f => f.issues_type == some "ObsoleteTypeDeclaration") = [] := by
      apply List.filter_eq_nil_iff.mpr
      intro a ha
      rcases List.mem_map.mp ha with ⟨sp, _, rfl⟩
      simp [mkSqlFinding_issues_type]
    have h2 : (((declFinditer ((u.code.getD "").data)).map
          (mkDeclFinding u ((u.code.getD "").data))).filter
            fun f => f.issues_type == some "ObsoleteTypeDeclaration")
        = (declFinditer ((u.code.getD "").data)).map
            (mkDeclFinding u ((u.code.getD "").data)) := by
      apply List.filter_eq_self.mpr
      intro a ha
      rcases List.mem_map.mp ha with ⟨m, _, rfl⟩
      simp [mkDeclFinding_issues_type]
    rw [h1, h2, List.nil_append]
  · intro m hm
    have hmsg : (mkDeclFinding u ((u.code.getD "").data) m).message
        = some (m.1 ++ " type is obsolete (SAP Note 2220005), use "
            ++ (OBSOLETE_TYPE_MAP.lookup m.1).getD "" ++ " instead.") := rfl
    refine ⟨declFinditer_cases _ m hm, ?_, ?_, ?_, ?_⟩
    · intro h1; rw [hmsg, h1]; decide
    · intro h1; rw [hmsg, h1]; decide
    · intro h1; rw [hmsg, h1]; decide
    · rw [analyzeUnit_findings_getD, computedFindings_def]
      exact List.mem_append_right _ (List.mem_map_of_mem _ hm)

/-- C2 (amended) witness: a DATA ... TYPE TABLE OF konv declaration and a
DATA ... TYPE dzaehk declaration receive ObsoleteTypeDeclaration findings
with the mapped replacements. -/
theorem decl_findings_characterization_witness :
    (((analyzeUnit (sampleUnit 1 1 "DATA lt TYPE TABLE OF konv.")).findings.getD []).filter
        fun f => f.issues_type == some "ObsoleteTypeDeclaration")
      = [mkDeclFinding (sampleUnit 1 1 "DATA lt TYPE TABLE OF konv.")
          "DATA lt TYPE TABLE OF konv.".data ("KONV", 0, 26)] ∧
    (mkDeclFinding (sampleUnit 1 1 "DATA lt TYPE TABLE OF konv.")
        "DATA lt TYPE TABLE OF konv.".data ("KONV", 0, 26)).message
      = some "KONV type is obsolete (SAP Note 2220005), use PRCD_ELEMENTS instead." ∧
    (mkDeclFinding (sampleUnit 1 1 "DATA c1 TYPE dzaehk.")
        "DATA c1 TYPE dzaehk.".data ("DZAEHK", 0, 19)).message
      = some "DZAEHK type is obsolete (SAP Note 2220005), use VFPRC_COND_COUNT instead." := by
  have h1 := decl_findings_characterization (sampleUnit 1 1 "DATA lt TYPE TABLE OF konv.")
  have h2 := decl_findings_characterization (sampleUnit 1 1 "DATA c1 TYPE dzaehk.")
  refine ⟨h1.1.trans (by decide), ?_, ?_⟩
  · exact (h1.2 ("KONV", 0, 26) (by decide)).2.1 rfl
  · exact (h2.2 ("DZAEHK", 0, 19) (by decide)).2.2.1 rfl

lemma matchCIAt_lt (l : List Char) (i : Nat) (pat : List Char)
    (hne : pat.length ≠ 0) (h : matchCIAt l i pat = true) : i < l.length := by
  unfold matchCIAt takeAt at h
  have hlen := congrArg List.length (eq_of_beq h)
  simp only [List.length_map, List.length_take, List.length_drop] at hlen
  have hle := Nat.min_le_right pat.length (l.length - i)
  rw [hlen] at hle
  omega

lemma konvWordAt_eq_false (l : List Char)
    (h : ∀ p, p < l.length → matchCIAt l p "KONV".data = true → noWordAt l (p + 4) = false)
    (p : Nat) : konvWordAt l p = false := by
  unfold konvWordAt
  cases hm : matchCIAt l p "KONV".data
  · simp [hm]
  · have hp : p < l.length := matchCIAt_lt l p "KONV".data (by decide) hm
    have hw := h p hp hm
    simp [hm, hw]

lemma konvAfter_eq_none (l : List Char)
    (h : ∀ p, p < l.length → matchCIAt l p "KONV".data = true → noWordAt l (p + 4) = false)
    (p : Nat) : konvAfter l p = none := by
  unfold konvAfter
  rw [List.head?_eq_none_iff]
  apply List.filterMap_eq_nil_iff.mpr
  intro j _
  rw [konvWordAt_eq_false l h]
  simp

lemma sqlMatchAt_eq_none (l : List Char)
    (h : ∀ p, p < l.length → matchCIAt l p "KONV".data = true → noWordAt l (p + 4) = false)
    (i : Nat) : sqlMatchAt l i = none := by
  unfold sqlMatchAt
  rw [List.head?_eq_none_iff]
  apply List.filterMap_eq_nil_iff.mpr
  intro p _
  exact konvAfter_eq_none l h p

lemma sqlFindAux_eq_nil (l : List Char)
    (h : ∀ p, p < l.length → matchCIAt l p "KONV".data = true → noWordAt l (p + 4) = false) :
    ∀ fuel i, sqlFindAux l i fuel = [] := by
  intro fuel
  induction fuel with
  | zero => intro i; rfl
  | succ fuel ih =>
    intro i
    unfold sqlFindAux
    by_cases hlt : l.length < i
    · rw [if_pos hlt]
    · rw [if_neg hlt, sqlMatchAt_eq_none l h]
      exact ih (i + 1)

lemma dtypeAt_eq_none (l : List Char)
    (h : ∀ p, p < l.length →
      (matchCIAt l p "KONV".data = true → noWordAt l (p + 4) = false) ∧
      (matchCIAt l p "DZAEHK".data = true → noWordAt l (p + 6) = false) ∧
      (matchCIAt l p "DZAEKO".data = true → noWordAt l (p + 6) = false))
    (p : Nat) : dtypeAt l p = none := by
  unfold dtypeAt
  split_ifs with h1 h2 h3
  · exfalso
    rw [Bool.and_eq_true] at h1
    have hp : p < l.length := matchCIAt_lt l p "KONV".data (by decide) h1.1
    rw [(h p hp).1 h1.1] at h1
    exact Bool.false_ne_true h1.2
  · exfalso
    rw [Bool.and_eq_true] at h2
    have hp : p < l.length := matchCIAt_lt l p "DZAEHK".data (by decide) h2.1
    rw [(h p hp).2.1 h2.1] at h2
    exact Bool.false_ne_true h2.2
  · exfalso
    rw [Bool.and_eq_true] at h3
    have hp : p < l.length := matchCIAt_lt l p "DZAEKO".data (by decide) h3.1
    rw [(h p hp).2.2 h3.1] at h3
    exact Bool.false_ne_true h3.2
  · rfl

lemma restMatch_eq_none (l : List Char)
    (h : ∀ p, p < l.length →
      (matchCIAt l p "KONV".data = true → noWordAt l (p + 4) = false) ∧
      (matchCIAt l p "DZAEHK".data = true → noWordAt l (p + 6) = false) ∧
      (matchCIAt l p "DZAEKO".data = true → noWordAt l (p + 6) = false))
    (q : Nat) : restMatch l q = none := by
  have htbl : restTableOf l (skipWs l q) = none := by
    unfold restTableOf
    split_ifs <;> first | exact dtypeAt_eq_none l h _ | rfl
  unfold restMatch
  rw [htbl]
  exact dtypeAt_eq_none l h _

lemma declBody_eq_none (l : List Char)
    (h : ∀ p, p < l.length →
      (matchCIAt l p "KONV".data = true → noWordAt l (p + 4) = false) ∧
      (matchCIAt l p "DZAEHK".data = true → noWordAt l (p + 6) = false) ∧
      (matchCIAt l p "DZAEKO".data = true → noWordAt l (p + 6) = false)) :
    ∀ fuel q, declBody l q fuel = none := by
  intro fuel
  induction fuel with
  | zero => intro q; rfl
  | succ fuel ih =>
    intro q
    unfold declBody
    split_ifs
    · exact restMatch_eq_none l h _
    · exact ih (q + 1)
    · rfl

lemma declFindAux_eq_nil (l : List Char)
    (h : ∀ p, p < l.length →
      (matchCIAt l p "KONV".data = true → noWordAt l (p + 4) = false) ∧
      (matchCIAt l p "DZAEHK".data = true → noWordAt l (p + 6) = false) ∧
      (matchCIAt l p "DZAEKO".data = true → noWordAt l (p + 6) = false)) :
    ∀ fuel i, declFindAux l i fuel = [] := by
  intro fuel
  induction fuel with
  | zero => intro i; rfl
  | succ fuel ih =>
    intro i
    have hdm : declMatchAt l i = none := by
      unfold declMatchAt
      split_ifs
      · cases hk : declKeywordLen l i with
        | some k => exact declBody_eq_none l h _ _
        | none => rfl
      · rfl
    unfold declFindAux
    by_cases hlt : l.length < i
    · rw [if_pos hlt]
    · rw [if_neg hlt, hdm]
      exact ih (i + 1)

/-- C4: when every occurrence of KONV, DZAEHK or DZAEKO in the text is
immediately followed by a further word character (i.e. the identifiers occur
only as proper prefixes of longer identifiers, as in KONVX), neither matcher
produces a match, and the scan of any unit holding that text reports no
findings. -/
theorem prefix_only_no_findings (l : List Char)
    (h : ∀ p, p < l.length →
      (matchCIAt l p "KONV".data = true → noWordAt l (p + 4) = false) ∧
      (matchCIAt l p "DZAEHK".data = true → noWordAt l (p + 6) = false) ∧
      (matchCIAt l p "DZAEKO".data = true → noWordAt l (p + 6) = false)) :
    sqlFinditer l = [] ∧ declFinditer l = [] ∧
    ∀ u : Unit, (u.code.getD "").data = l → (analyzeUnit u).findings = none := by
  have h1 : ∀ p, p < l.length → matchCIAt l p "KONV".data = true →
      noWordAt l (p + 4) = false := fun p hp => (h p hp).1
  have hs : sqlFinditer l = [] := sqlFindAux_eq_nil l h1 _ _
  have hd : declFinditer l = [] := declFindAux_eq_nil l h _ _
  refine ⟨hs, hd, ?_⟩
  intro u hu
  rw [analyzeUnit_findings_eq_none_iff, computedFindings_def, hu, hs, hd]
  rfl

/-- C4 witness: a text using KONVX, DZAEHK_X and DZAEKOL only. -/
theorem prefix_only_no_findings_witness :
    sqlFinditer "SELECT * FROM konvx. DATA a TYPE konvx, b TYPE dzaehk_x, c LIKE dzaekol.".data = [] ∧
    declFinditer "SELECT * FROM konvx. DATA a TYPE konvx, b TYPE dzaehk_x, c LIKE dzaekol.".data = [] ∧
    (analyzeUnit (sampleUnit 1 1
        "SELECT * FROM konvx. DATA a TYPE konvx, b TYPE dzaehk_x, c LIKE dzaekol.")).findings
      = none := by
  have h := prefix_only_no_findings
    "SELECT * FROM konvx. DATA a TYPE konvx, b TYPE dzaehk_x, c LIKE dzaekol.".data
    (by decide)
  exact ⟨h.1, h.2.1, h.2.2 _ (by decide)⟩

lemma lastNlIdx_none_count : ∀ p : List Char, lastNlIdx p = none → p.count '\n' = 0 := by
  intro p
  induction p with
  | nil => intro _; rfl
  | cons c cs ih =>
    intro h
    unfold lastNlIdx at h
    cases hcs : lastNlIdx cs with
    | some i => rw [hcs] at h; cases h
    | none =>
      rw [hcs] at h
      by_cases hc : c == '\n'
      · rw [if_pos hc] at h; cases h
      · rw [List.count_cons, ih hcs]
        simp [hc]

lemma lastNlIdx_some : ∀ (p : List Char) (i : Nat), lastNlIdx p = some i →
    i < p.length ∧ p[i]? = some '\n' ∧ (p.drop (i + 1)).count '\n' = 0 := by
  intro p
  induction p with
  | nil => intro i h; cases h
  | cons c cs ih =>
    intro i h
    unfold lastNlIdx at h
    cases hcs : lastNlIdx cs with
    | some j =>
      rw [hcs] at h
      simp only [Option.some.injEq] at h
      subst h
      obtain ⟨h1, h2, h3⟩ := ih j hcs
      exact ⟨by simpa using Nat.succ_lt_succ h1, by simpa using h2, by simpa using h3⟩
    | none =>
      rw [hcs] at h
      by_cases hc : c == '\n'
      · rw [if_pos hc] at h
        simp only [Option.some.injEq] at h
        subst h
        exact ⟨Nat.succ_pos _, by simp [eq_of_beq hc],
          by simpa using lastNlIdx_none_count cs hcs⟩
      · rw [if_neg hc] at h; cases h

lemma firstNlIdx_none_count : ∀ q : List Char, firstNlIdx q = none → q.count '\n' = 0 := by
  intro q
  induction q with
  | nil => intro _; rfl
  | cons c cs ih =>
    intro h
    unfold firstNlIdx at h
    by_cases hc : c == '\n'
    · rw [if_pos hc] at h; cases h
    · rw [if_neg hc] at h
      rw [List.count_cons, ih (Option.map_eq_none'.mp h)]
      simp [hc]

lemma firstNlIdx_some : ∀ (q : List Char) (j : Nat), firstNlIdx q = some j →
    j < q.length ∧ q[j]? = some '\n' ∧ (q.take j).count '\n' = 0 := by
  intro q
  induction q with
  | nil => intro j h; cases h
  | cons c cs ih =>
    intro j h
    unfold firstNlIdx at h
    by_cases hc : c == '\n'
    · rw [if_pos hc] at h
      simp only [Option.some.injEq] at h
      subst h
      exact ⟨Nat.succ_pos _, by simp [eq_of_beq hc], rfl⟩
    · rw [if_neg hc] at h
      obtain ⟨j0, hj0, hf⟩ := Option.map_eq_some'.mp h
      subst hf
      obtain ⟨h1, h2, h3⟩ := ih j0 hj0
      refine ⟨by simpa using Nat.succ_lt_succ h1, by simpa using h2, ?_⟩
      rw [List.take_succ_cons, List.count_cons, h3]
      simp [hc]

lemma lineStartPos_le (l : List Char) (s : Nat) :
    lineStartPos l s ≤ s ∧ lineStartPos l s ≤ l.length := by
  unfold lineStartPos
  cases h : lastNlIdx (l.take s) with
  | none => exact ⟨Nat.zero_le _, Nat.zero_le _⟩
  | some i =>
    have h1 := (lastNlIdx_some _ _ h).1
    rw [List.length_take] at h1
    refine ⟨?_, ?_⟩ <;> · show i + 1 ≤ _; omega

lemma lineStartPos_drop_count (l : List Char) (s : Nat) :
    ((l.take s).drop (lineStartPos l s)).count '\n' = 0 := by
  unfold lineStartPos
  cases h : lastNlIdx (l.take s) with
  | none => rw [List.drop_zero]; exact lastNlIdx_none_count _ h
  | some i => exact (lastNlIdx_some _ _ h).2.2

lemma lineStartPos_boundary (l : List Char) (s : Nat) :
    lineStartPos l s = 0 ∨
      (lineStartPos l s ≠ 0 ∧ l[lineStartPos l s - 1]? = some '\n') := by
  unfold lineStartPos
  cases h : lastNlIdx (l.take s) with
  | none => exact Or.inl rfl
  | some i =>
    right
    refine ⟨Nat.succ_ne_zero _, ?_⟩
    have h2 := (lastNlIdx_some _ _ h).2.1
    rw [List.getElem?_take] at h2
    by_cases hi : i < s
    · rw [if_pos hi] at h2
      simpa using h2
    · rw [if_neg hi] at h2; cases h2

lemma lineEndPos_ge (l : List Char) (e : Nat) (he : e ≤ l.length) :
    e ≤ lineEndPos l e := by
  unfold lineEndPos
  cases h : firstNlIdx (l.drop e) with
  | none => exact he
  | some j => exact Nat.le_add_right _ _

lemma lineEndPos_le_length (l : List Char) (e : Nat) :
    lineEndPos l e ≤ l.length := by
  unfold lineEndPos
  cases h : firstNlIdx (l.drop e) with
  | none => exact Nat.le_refl _
  | some j =>
    have h1 := (firstNlIdx_some _ _ h).1
    rw [List.length_drop] at h1
    show e + j ≤ l.length
    omega

lemma lineEndPos_drop_count (l : List Char) (e : Nat) :
    ((l.take (lineEndPos l e)).drop e).count '\n' = 0 := by
  unfold lineEndPos
  cases h : firstNlIdx (l.drop e) with
  | none =>
    rw [List.take_length]
    exact firstNlIdx_none_count _ h
  | some j =>
    rw [List.drop_take]
    have : e + j - e = j := by omega
    rw [this]
    exact (firstNlIdx_some _ _ h).2.2

lemma lineEndPos_boundary (l : List Char) (e : Nat) :
    lineEndPos l e = l.length ∨ l[lineEndPos l e]? = some '\n' := by
  unfold lineEndPos
  cases h : firstNlIdx (l.drop e) with
  | none => exact Or.inl rfl
  | some j =>
    right
    have h2 := (firstNlIdx_some _ _ h).2.1
    rw [List.getElem?_drop] at h2
    exact h2

lemma slice_append (l : List Char) (a b c : Nat) (hab : a ≤ b) (hbc : b ≤ c)
    (hal : a ≤ l.length) :
    (l.take c).drop a = (l.take b).drop a ++ (l.take c).drop b := by
  have h1 : l.take c = l.take b ++ (l.take c).drop b := by
    conv_lhs => rw [← List.take_append_drop b (l.take c)]
    rw [List.take_take, Nat.min_eq_left hbc]
  have hlen : a ≤ (l.take b).length := by
    rw [List.length_take]
    omega
  conv_lhs => rw [h1, List.drop_append_of_le_length hlen]

lemma slice_count_zero (l : List Char) (ms me : Nat)
    (hnl : ∀ k, k < me → ms ≤ k → l[k]? ≠ some '\n') :
    ((l.take me).drop ms).count '\n' = 0 := by
  apply List.count_eq_zero.mpr
  intro hmem
  obtain ⟨t, ht⟩ := List.mem_iff_getElem?.mp hmem
  rw [List.getElem?_drop, List.getElem?_take] at ht
  by_cases hlt : ms + t < me
  · rw [if_pos hlt] at ht
    exact hnl (ms + t) hlt (Nat.le_add_right _ _) ht
  · rw [if_neg hlt] at ht; cases ht

lemma pyReplaceAux_succ_cons (pat rep : List Char) (fuel : Nat) (c : Char)
    (cs : List Char) :
    pyReplaceAux pat rep (fuel + 1) (c :: cs)
      = if pat.isPrefixOf (c :: cs) && !pat.isEmpty then
          rep ++ pyReplaceAux pat rep fuel ((c :: cs).drop pat.length)
        else c :: pyReplaceAux pat rep fuel cs := rfl

lemma escSpec_cons (c : Char) (cs : List Char) :
    escSpec (c :: cs) = (if c == '\n' then ['\\', 'n'] else [c]) ++ escSpec cs := rfl

lemma pyReplaceAux_nl : ∀ (fuel : Nat) (l : List Char), l.length ≤ fuel →
    pyReplaceAux ['\n'] ['\\', 'n'] fuel l = escSpec l := by
  intro fuel
  induction fuel with
  | zero =>
    intro l hl
    rw [List.length_eq_zero.mp (Nat.le_zero.mp hl)]
    rfl
  | succ fuel ih =>
    intro l hl
    cases l with
    | nil => rfl
    | cons c cs =>
      simp only [List.length_cons, Nat.add_le_add_iff_right] at hl
      rw [pyReplaceAux_succ_cons, escSpec_cons]
      by_cases hc : c == '\n'
      · obtain rfl := eq_of_beq hc
        rw [if_pos (by simp [List.isPrefixOf]), if_pos (by simp)]
        rw [show (('\n' :: cs).drop (['\n'] : List Char).length) = cs from rfl, ih cs hl]
      · have hcc : ('\n' == c) = false := by
          cases hbc : ('\n' == c)
          · rfl
          · exact absurd (by rw [eq_of_beq hbc]; simp) hc
        rw [if_neg (by simp [List.isPrefixOf, hcc]), if_neg (by simp [hc]), ih cs hl]
        rfl

lemma pyReplace_nl (l : List Char) :
    pyReplace ['\n'] ['\\', 'n'] l = escSpec l :=
  pyReplaceAux_nl l.length l (Nat.le_refl _)

lemma escSpec_count (l : List Char) : (escSpec l).count '\n' = 0 := by
  induction l with
  | nil => rfl
  | cons c cs ih =>
    unfold escSpec
    rw [List.count_append, ih]
    by_cases hc : c == '\n'
    · rw [if_pos hc]; decide
    · rw [if_neg hc]
      simp [List.count_cons, hc]

lemma escSpec_id_of_no_nl (l : List Char) (h : l.count '\n' = 0) : escSpec l = l := by
  induction l with
  | nil => rfl
  | cons c cs ih =>
    rw [List.count_cons] at h
    by_cases hc : c == '\n'
    · rw [if_pos hc] at h; omega
    · rw [if_neg hc] at h
      unfold escSpec
      rw [if_neg (by simp [hc]), ih h]
      rfl

/-- C7: every finding's snippet has its newlines escaped to the two-character
sequence backslash-n (so it never contains a literal newline); and for a
match confined to a single source line the snippet is exactly the full line
containing the match: a newline-free segment of the text, delimited on both
sides by a newline or the text boundary, that covers the whole match span. -/
theorem snippet_full_line (u : Unit) (src : List Char) (ms me : Nat)
    (ity msg sug : String) :
    ((makeFinding u src ms me ity msg sug).snippet.getD "").data
        = escSpec (getLineSnippet src ms me) ∧
    ((makeFinding u src ms me ity msg sug).snippet.getD "").data.count '\n' = 0 ∧
    (ms ≤ me → me ≤ src.length →
      (∀ k, k < me → ms ≤ k → src[k]? ≠ some '\n') →
      (makeFinding u src ms me ity msg sug).snippet
          = some (String.mk (getLineSnippet src ms me)) ∧
      (getLineSnippet src ms me).count '\n' = 0 ∧
      src = src.take (lineStartPos src ms) ++ getLineSnippet src ms me
          ++ src.drop (lineEndPos src me) ∧
      (src.take (lineStartPos src ms) = [] ∨
        (src.take (lineStartPos src ms)).getLast? = some '\n') ∧
      (src.drop (lineEndPos src me) = [] ∨
        (src.drop (lineEndPos src me)).head? = some '\n') ∧
      lineStartPos src ms ≤ ms ∧ me ≤ lineEndPos src me) := by
  have hesc : ((makeFinding u src ms me ity msg sug).snippet.getD "").data
      = pyReplace ['\n'] ['\\', 'n'] (getLineSnippet src ms me) := rfl
  refine ⟨by rw [hesc, pyReplace_nl], by rw [hesc, pyReplace_nl]; exact escSpec_count _, ?_⟩
  intro hms hme hnl
  have hls_ms : lineStartPos src ms ≤ ms := (lineStartPos_le src ms).1
  have hls_len : lineStartPos src ms ≤ src.length := (lineStartPos_le src ms).2
  have hme_le : me ≤ lineEndPos src me := lineEndPos_ge src me hme
  have hle_len : lineEndPos src me ≤ src.length := lineEndPos_le_length src me
  have hsnip : getLineSnippet src ms me
      = ((src.take ms).drop (lineStartPos src ms)) ++ ((src.take me).drop ms)
        ++ ((src.take (lineEndPos src me)).drop me) := by
    unfold getLineSnippet
    rw [slice_append src (lineStartPos src ms) me (lineEndPos src me)
        (Nat.le_trans hls_ms hms) hme_le hls_len,
      slice_append src (lineStartPos src ms) ms me hls_ms hms hls_len,
      List.append_assoc]
  have hcnt : (getLineSnippet src ms me).count '\n' = 0 := by
    rw [hsnip, List.count_append, List.count_append,
      lineStartPos_drop_count, slice_count_zero src ms me hnl, lineEndPos_drop_count]
  refine ⟨?_, hcnt, ?_, ?_, ?_, hls_ms, hme_le⟩
  · have hfield : (makeFinding u src ms me ity msg sug).snippet
        = some (String.mk (pyReplace ['\n'] ['\\', 'n'] (getLineSnippet src ms me))) := rfl
    rw [hfield, pyReplace_nl, escSpec_id_of_no_nl _ hcnt]
  · have h1 : src.take (lineEndPos src me)
        = src.take (lineStartPos src ms)
          ++ (src.take (lineEndPos src me)).drop (lineStartPos src ms) := by
      conv_lhs => rw [← List.take_append_drop (lineStartPos src ms)
        (src.take (lineEndPos src me))]
      rw [List.take_take, Nat.min_eq_left (Nat.le_trans (Nat.le_trans hls_ms hms) hme_le)]
    conv_lhs => rw [← List.take_append_drop (lineEndPos src me) src, h1]
    rw [List.append_assoc]
    conv_rhs => rw [List.append_assoc]
    rfl
  · rcases lineStartPos_boundary src ms with h0 | ⟨hne, hnlb⟩
    · left; rw [h0]; rfl
    · right
      have hstep : src.take (lineStartPos src ms)
          = src.take (lineStartPos src ms - 1)
            ++ (src[lineStartPos src ms - 1]?).toList := by
        conv_lhs => rw [show lineStartPos src ms = (lineStartPos src ms - 1) + 1 from
          (Nat.succ_pred_eq_of_pos (Nat.pos_of_ne_zero hne)).symm]
        exact List.take_succ
      rw [hstep, hnlb]
      exact List.getLast?_concat _
  · rcases lineEndPos_boundary src me with h0 | hnlb
    · left; rw [h0, List.drop_length]
    · right
      rw [List.head?_eq_getElem?, List.getElem?_drop, Nat.add_zero]
      exact hnlb

/-- C7 witness: the match (8, 26) of SELECT * FROM konv. sits on one line of
a three-line unit; the snippet is exactly that full line, newline-free. -/
theorem snippet_full_line_witness :
    (makeFinding (sampleUnit 10 12 "DATA a.\nSELECT * FROM konv.\nENDFORM.")
        "DATA a.\nSELECT * FROM konv.\nENDFORM.".data 8 26
        "ObsoleteTableUsage" "m" "s").snippet
      = some (String.mk (getLineSnippet
          "DATA a.\nSELECT * FROM konv.\nENDFORM.".data 8 26)) ∧
    (getLineSnippet "DATA a.\nSELECT * FROM konv.\nENDFORM.".data 8 26).count '\n' = 0 ∧
    String.mk (getLineSnippet "DATA a.\nSELECT * FROM konv.\nENDFORM.".data 8 26)
      = "SELECT * FROM konv." := by
  have h := (snippet_full_line (sampleUnit 10 12 "DATA a.\nSELECT * FROM konv.\nENDFORM.")
    "DATA a.\nSELECT * FROM konv.\nENDFORM.".data 8 26 "ObsoleteTableUsage" "m" "s").2.2
    (by decide) (by decide) (by decide)
  exact ⟨h.1, h.2.1, by decide⟩

lemma count_take_eq_lineStart (l : List Char) (ms : Nat) :
    (l.take ms).count '\n' = (l.take (lineStartPos l ms)).count '\n' := by
  have h1 : l.take ms
      = l.take (lineStartPos l ms) ++ (l.take ms).drop (lineStartPos l ms) := by
    conv_lhs => rw [← List.take_append_drop (lineStartPos l ms) (l.take ms)]
    rw [List.take_take, Nat.min_eq_left (lineStartPos_le l ms).1]
  conv_lhs => rw [h1]
  rw [List.count_append, lineStartPos_drop_count, Nat.add_zero]

lemma snippet_count_le (l : List Char) (ms me : Nat) :
    (getLineSnippet l ms me).count '\n' ≤ (l.drop (lineStartPos l ms)).count '\n' := by
  show ((l.take (lineEndPos l me)).drop (lineStartPos l ms)).count '\n' ≤ _
  rw [List.drop_take]
  exact (List.take_sublist _ _).count_le _

lemma counts_core (l : List Char) (ms me : Nat) :
    (l.take ms).count '\n' + (getLineSnippet l ms me).count '\n' ≤ l.count '\n' := by
  rw [count_take_eq_lineStart]
  have h2 := snippet_count_le l ms me
  have h3 : (l.take (lineStartPos l ms)).count '\n'
        + (l.drop (lineStartPos l ms)).count '\n' = l.count '\n' := by
    rw [← List.count_append, List.take_append_drop]
  omega

lemma makeFinding_line_bounds (u : Unit) (s e : Int) (src : List Char) (ms me : Nat)
    (ity msg sug : String) (hs : u.start_line = some s)
    (hacc : (src.count '\n' : Int) ≤ e - s) :
    ∃ a b : Int, (makeFinding u src ms me ity msg sug).starting_line = some a ∧
      (makeFinding u src ms me ity msg sug).ending_line = some b ∧
      s < a ∧ a ≤ e + 1 ∧ a < b ∧ b ≤ e + 2 := by
  have hcore := counts_core src ms me
  refine ⟨u.start_line.getD 0 + (((src.take ms).count '\n' : Int) + 1),
    u.start_line.getD 0 + (((src.take ms).count '\n' : Int) + 1)
      + (((getLineSnippet src ms me).count '\n' : Int) + 1),
    rfl, rfl, ?_, ?_, ?_, ?_⟩ <;>
  · rw [hs, Option.getD_some]
    omega

/-- C8: when the caller-supplied start_line and end_line are accurate for the
code text (the code has at most end_line - start_line newlines), every
finding's starting_line lies in (start_line, end_line + 1] and its
ending_line in (starting_line, end_line + 2]: within the declared range or
immediately after it, the one-past overshoot coming from the documented
line-number formulas. -/
theorem findings_line_range (u : Unit) (s e : Int)
    (hs : u.start_line = some s) (_he : u.end_line = some e)
    (hacc : ((((u.code.getD "").data).count '\n' : Int)) ≤ e - s) :
    ∀ f ∈ (analyzeUnit u).findings.getD [], ∃ a b : Int,
      f.starting_line = some a ∧ f.ending_line = some b ∧
      s < a ∧ a ≤ e + 1 ∧ a < b ∧ b ≤ e + 2 := by
  intro f hf
  rw [analyzeUnit_findings_getD, computedFindings_def] at hf
  rcases List.mem_append.mp hf with hA | hB
  · rcases List.mem_map.mp hA with ⟨sp, _, rfl⟩
    exact makeFinding_line_bounds u s e _ sp.1 sp.2 _ _ _ hs hacc
  · rcases List.mem_map.mp hB with ⟨m, _, rfl⟩
    exact makeFinding_line_bounds u s e _ m.2.1 m.2.2 _ _ _ hs hacc

/-- C8 witness: a one-line unit declared at lines [5, 5] gets its finding at
starting_line 6 = end_line + 1 and ending_line 7 = end_line + 2. -/
theorem findings_line_range_witness :
    ∃ a b : Int,
      (mkSqlFinding (sampleUnit 5 5 "UPDATE konv.") "UPDATE konv.".data (0, 11)).starting_line
          = some a ∧
      (mkSqlFinding (sampleUnit 5 5 "UPDATE konv.") "UPDATE konv.".data (0, 11)).ending_line
          = some b ∧
      (5 : Int) < a ∧ a ≤ 5 + 1 ∧ a < b ∧ b ≤ 5 + 2 :=
  findings_line_range (sampleUnit 5 5 "UPDATE konv.") 5 5 rfl rfl (by decide)
    (mkSqlFinding (sampleUnit 5 5 "UPDATE konv.") "UPDATE konv.".data (0, 11))
    (by decide)

/-- C10: analyze_unit is a functional transform: the scanned unit keeps every
field of the input except findings, any findings already present on the input
are ignored, and the output findings are the freshly computed list (or None
when that list is empty). -/
theorem analyze_unit_frame (u : Unit) (fs : Option (List Finding)) :
    (analyzeUnit u).pgm_name = u.pgm_name ∧
    (analyzeUnit u).inc_name = u.inc_name ∧
    (analyzeUnit u).type = u.type ∧
    (analyzeUnit u).name = u.name ∧
    (analyzeUnit u).start_line = u.start_line ∧
    (analyzeUnit u).end_line = u.end_line ∧
    (analyzeUnit u).code = u.code ∧
    analyzeUnit { u with findings := fs } = analyzeUnit u ∧
    ((analyzeUnit u).findings = none ∨
      (analyzeUnit u).findings = some (computedFindings u)) := by
  refine ⟨rfl, rfl, rfl, rfl, rfl, rfl, rfl, rfl, ?_⟩
  rw [analyzeUnit_findings]
  cases hb : (computedFindings u).isEmpty
  · right; rw [if_neg (by simp [hb])]
  · left; rw [if_pos (by simp [hb])]

end Rule2220005
